import Mathlib

/-!
Verification development for the mvmv parallel move tool (src/move.go).

The engine is embedded shallowly: the filesystem is an oracle giving the
results of the system calls the code performs (`os.Lstat`, `os.ReadDir`,
`os.Rename`), and each per-job function from move.go becomes a pure Lean
function returning the updated statistics, the child jobs it produced and
the trace of rename calls it issued.  The scheduling of the worker pool is
modelled by a fueled sequential worklist: statistics updates are commutative
increments and jobs touch disjoint paths, so any interleaving yields the
same counters.
-/

namespace Mvmv

/-- The kind of filesystem object reported by `Lstat` without following
links.  `file` stands for any non-directory, non-symlink object.  A symlink
is its own kind: the Go `Lstat` call reports `ModeSymlink` set and `IsDir() = false`
for every symlink, so the three kinds are mutually exclusive. -/
inductive FType
  | file
  | dir
  | symlink
deriving DecidableEq, Repr

/-- The fields of `os.FileInfo` the code reads: `IsDir()` / `Mode()&ModeSymlink`
(captured by `ftype`) and `Size()` (file sizes are non-negative). -/
structure FileInfo where
  ftype : FType
  size : Nat
deriving DecidableEq, Repr

/-- Outcome of `os.Lstat`: success with a `FileInfo`, a not-exists error, or
any other error (e.g. permission denied).  The code only ever tests
`err == nil`, but the distinction matters for claims about non-not-exists
errors. -/
inductive LstatResult
  | ok (info : FileInfo)
  | errNotExist
  | errOther
deriving DecidableEq, Repr

/-- The filesystem oracle: results of the system calls issued by move.go.
`readDir` returns the immediate entry names of a directory (`none` = error);
`renameFails` says whether `os.Rename` on a given pair fails. -/
structure Fs where
  lstat : String → LstatResult
  readDir : String → Option (List String)
  renameFails : String → String → Bool

/-- Options from move.go (worker count and buffer size do not affect the
per-job logic; they are kept for completeness). -/
structure Options where
  workers : Nat
  buffer : Nat
  stats : Bool
  verbose : Bool
  dryRun : Bool
deriving DecidableEq, Repr

/-- Statistics from move.go.  The Go fields are int64 counters that are only
ever incremented (by 1, or by a non-negative file size), so `Nat` is
faithful; `StartTime` is wall-clock only and is not modelled. -/
structure Statistics where
  dirsChecked : Nat := 0
  dirsSkipped : Nat := 0
  dirsMoved : Nat := 0
  filesChecked : Nat := 0
  filesSkipped : Nat := 0
  filesMoved : Nat := 0
  bytesMoved : Nat := 0
  symlinksSkipped : Nat := 0
  errors : Nat := 0
deriving DecidableEq, Repr

/-- The zero statistics a run starts from (`&Statistics{...}` in `performMove`). -/
def initStats : Statistics := {}

/-- A Job from move.go: one (source, target) path pair. -/
structure Job where
  sourcePath : String
  targetPath : String
deriving DecidableEq, Repr

/-- The filesystem mutations a job issues: the `os.Rename` calls.  (Verbose
printing is observational only and is not modelled.) -/
inductive Effect
  | rename (source target : String)
deriving DecidableEq, Repr

/-- Model of `filepath.Join(dir, name)` for a directory path and a plain entry name
(entry names returned by `ReadDir` contain no separator, so `Join` is plain
concatenation with one separator). -/
def joinPath (dir name : String) : String := dir ++ "/" ++ name

/-- Lines 183-184 of move.go: `_, err = os.Lstat(targetPath); targetExists := err == nil`. -/
def targetExists (fs : Fs) (targetPath : String) : Bool :=
  match fs.lstat targetPath with
  | .ok _ => true
  | .errNotExist => false
  | .errOther => false

/-- Embedding of `processDir` from move.go (lines 194-236). -/
def processDir (fs : Fs) (opts : Options) (sourcePath targetPath : String)
    (tgtExists : Bool) (stats : Statistics) : Statistics × List Job × List Effect :=
  let stats := { stats with dirsChecked := stats.dirsChecked + 1 }
  if tgtExists = false then
    if opts.dryRun = false then
      if fs.renameFails sourcePath targetPath then
        ({ stats with errors := stats.errors + 1 }, [], [Effect.rename sourcePath targetPath])
      else
        ({ stats with dirsMoved := stats.dirsMoved + 1 }, [],
         [Effect.rename sourcePath targetPath])
    else
      ({ stats with dirsMoved := stats.dirsMoved + 1 }, [], [])
  else
    let stats := { stats with dirsSkipped := stats.dirsSkipped + 1 }
    match fs.readDir sourcePath with
    | none => ({ stats with errors := stats.errors + 1 }, [], [])
    | some entries =>
      (stats,
       entries.map (fun name =>
         { sourcePath := joinPath sourcePath name, targetPath := joinPath targetPath name }),
       [])

/-- Embedding of `processFile` from move.go (lines 238-267). -/
def processFile (fs : Fs) (opts : Options) (sourcePath targetPath : String)
    (tgtExists : Bool) (sourceInfo : FileInfo) (stats : Statistics) :
    Statistics × List Effect :=
  let stats := { stats with filesChecked := stats.filesChecked + 1 }
  if tgtExists then
    ({ stats with filesSkipped := stats.filesSkipped + 1 }, [])
  else if opts.dryRun = false then
    if fs.renameFails sourcePath targetPath then
      ({ stats with errors := stats.errors + 1 }, [Effect.rename sourcePath targetPath])
    else
      ({ stats with filesMoved := stats.filesMoved + 1,
                    bytesMoved := stats.bytesMoved + sourceInfo.size },
       [Effect.rename sourcePath targetPath])
  else
    ({ stats with filesMoved := stats.filesMoved + 1,
                  bytesMoved := stats.bytesMoved + sourceInfo.size }, [])

/-- Embedding of `processPath` from move.go (lines 161-192). -/
def processPath (fs : Fs) (opts : Options) (sourcePath targetPath : String)
    (stats : Statistics) : Statistics × List Job × List Effect :=
  if sourcePath = targetPath then (stats, [], [])
  else
    match fs.lstat sourcePath with
    | .errNotExist => ({ stats with errors := stats.errors + 1 }, [], [])
    | .errOther => ({ stats with errors := stats.errors + 1 }, [], [])
    | .ok sourceInfo =>
      if sourceInfo.ftype = .symlink then
        ({ stats with symlinksSkipped := stats.symlinksSkipped + 1 }, [], [])
      else if sourceInfo.ftype = .dir then
        processDir fs opts sourcePath targetPath (targetExists fs targetPath) stats
      else
        let r := processFile fs opts sourcePath targetPath (targetExists fs targetPath)
          sourceInfo stats
        (r.1, [], r.2)

/-- One operation a worker performs on the `sync.WaitGroup` counter. -/
inductive WgOp
  | add
  | done
deriving DecidableEq, Repr

/-- The sequence of WaitGroup operations one worker iteration performs after
`processPath` returns `newJobs` (move.go lines 152-157): `jobsWg.Add(1)` once
per child, in order, then `jobsWg.Done()` for the parent job. -/
def workerWgOps (newJobs : List Job) : List WgOp :=
  newJobs.map (fun _ => WgOp.add) ++ [WgOp.done]

/-- The WaitGroup counter value after applying a sequence of operations. -/
def wgCount (c : Nat) : List WgOp → Nat
  | [] => c
  | WgOp.add :: rest => wgCount (c + 1) rest
  | WgOp.done :: rest => wgCount (c - 1) rest

/-- Validation errors of `performMove` (lines 84-107), in source order. -/
inductive ValidationError
  | sourceStatError
  | sourceNotDir
  | sourceSymlink
  | targetStatError
  | targetNotDir
  | targetSymlink
deriving DecidableEq, Repr

/-- The path validation at the top of `performMove` (lines 84-107), in the
order of the code: Lstat the source, check `IsDir`, check the symlink mode bit,
then the same for the target. -/
def validate (fs : Fs) (source target : String) : Option ValidationError :=
  match fs.lstat source with
  | .errNotExist => some .sourceStatError
  | .errOther => some .sourceStatError
  | .ok sourceInfo =>
    if sourceInfo.ftype ≠ .dir then some .sourceNotDir
    else if sourceInfo.ftype = .symlink then some .sourceSymlink
    else
      match fs.lstat target with
      | .errNotExist => some .targetStatError
      | .errOther => some .targetStatError
      | .ok targetInfo =>
        if targetInfo.ftype ≠ .dir then some .targetNotDir
        else if targetInfo.ftype = .symlink then some .targetSymlink
        else none

/-- The job loop of the engine: process the outstanding jobs one at a time,
appending the children each job produces, until no job is outstanding.
`fuel` bounds the number of jobs processed; `none` means the fuel ran out
before the worklist drained.  Statistics updates commute and jobs touch
disjoint paths, so this sequential order computes the same final counters
as any concurrent schedule of the worker pool. -/
def runJobs (fs : Fs) (opts : Options) :
    Nat → List Job → Statistics → Option (Statistics × List Effect)
  | _, [], stats => some (stats, [])
  | 0, _ :: _, _ => none
  | fuel + 1, job :: rest, stats =>
    let r := processPath fs opts job.sourcePath job.targetPath stats
    match runJobs fs opts fuel (rest ++ r.2.1) r.1 with
    | none => none
    | some (st, effs) => some (st, r.2.2 ++ effs)

/-- The overall outcome of `performMove` (lines 84-146). -/
inductive RunOutcome
  | invalid (e : ValidationError)
  | fuelOut
  | finished (success : Bool) (stats : Statistics) (effects : List Effect)
deriving DecidableEq, Repr

/-- Embedding of `performMove` from move.go: validate both paths, seed the single root
job, run the engine, and succeed iff the error counter ended at zero
(lines 141-145: `if atomic.LoadInt64(&stats.Errors) > 0 { return err }`). -/
def performMove (fs : Fs) (opts : Options) (source target : String) (fuel : Nat) :
    RunOutcome :=
  match validate fs source target with
  | some e => .invalid e
  | none =>
    match runJobs fs opts fuel [{ sourcePath := source, targetPath := target }] initStats with
    | none => .fuelOut
    | some (st, effs) => .finished (st.errors == 0) st effs

/-! ### Concrete fixtures used to instantiate the theorems -/

/-- Default options: real run (no dry-run). -/
def optsDefault : Options :=
  { workers := 1, buffer := 100000, stats := false, verbose := false, dryRun := false }

/-- Options with dry-run enabled. -/
def optsDry : Options :=
  { workers := 1, buffer := 100000, stats := false, verbose := false, dryRun := true }

/-- Source `/s` holding files `a` (5 bytes) and `b` (7 bytes); target `/t`
exists but holds neither; all renames succeed. -/
def fsA : Fs :=
  { lstat := fun p =>
      if p = "/s" then .ok { ftype := .dir, size := 0 }
      else if p = "/t" then .ok { ftype := .dir, size := 0 }
      else if p = "/s/a" then .ok { ftype := .file, size := 5 }
      else if p = "/s/b" then .ok { ftype := .file, size := 7 }
      else .errNotExist,
    readDir := fun p => if p = "/s" then some ["a", "b"] else none,
    renameFails := fun _ _ => false }

/-- Source `/s` holding file `f`; `f` already exists in target `/t`, so the
run skips it and records no error. -/
def fsSkip : Fs :=
  { lstat := fun p =>
      if p = "/s" then .ok { ftype := .dir, size := 0 }
      else if p = "/t" then .ok { ftype := .dir, size := 0 }
      else if p = "/s/f" then .ok { ftype := .file, size := 5 }
      else if p = "/t/f" then .ok { ftype := .file, size := 3 }
      else .errNotExist,
    readDir := fun p => if p = "/s" then some ["f"] else none,
    renameFails := fun _ _ => false }

/-- Source `/s` holding file `f`, absent from target `/t`, but the rename of
`/s/f` fails (e.g. permission denied on the file). -/
def fsFail : Fs :=
  { lstat := fun p =>
      if p = "/s" then .ok { ftype := .dir, size := 0 }
      else if p = "/t" then .ok { ftype := .dir, size := 0 }
      else if p = "/s/f" then .ok { ftype := .file, size := 5 }
      else .errNotExist,
    readDir := fun p => if p = "/s" then some ["f"] else none,
    renameFails := fun _ _ => true }

/-- Source `/s` holding a symbolic link `l`; target `/t` exists and is empty. -/
def fsSym : Fs :=
  { lstat := fun p =>
      if p = "/s" then .ok { ftype := .dir, size := 0 }
      else if p = "/t" then .ok { ftype := .dir, size := 0 }
      else if p = "/s/l" then .ok { ftype := .symlink, size := 0 }
      else .errNotExist,
    readDir := fun p => if p = "/s" then some ["l"] else none,
    renameFails := fun _ _ => false }

/-- Source file `/s/p` whose target path `/t/p` answers `Lstat` with an error
other than not-exists (e.g. permission denied on a parent component). -/
def fsPerm : Fs :=
  { lstat := fun p =>
      if p = "/s" then .ok { ftype := .dir, size := 0 }
      else if p = "/t" then .ok { ftype := .dir, size := 0 }
      else if p = "/s/p" then .ok { ftype := .file, size := 4 }
      else if p = "/t/p" then .errOther
      else .errNotExist,
    readDir := fun p => if p = "/s" then some ["p"] else none,
    renameFails := fun _ _ => false }

/-- The source root `/s` is itself a symbolic link (to a directory); the
target root `/t` is a real directory. -/
def fsLinkRoot : Fs :=
  { lstat := fun p =>
      if p = "/s" then .ok { ftype := .symlink, size := 0 }
      else if p = "/t" then .ok { ftype := .dir, size := 0 }
      else .errNotExist,
    readDir := fun _ => none,
    renameFails := fun _ _ => false }

/-- Final statistics of the `fsFail` run: the file is checked, its rename
fails, and it ends up neither moved nor skipped. -/
def c8Stats : Statistics :=
  { dirsChecked := 1, dirsSkipped := 1, filesChecked := 1, errors := 1 }

/-- Final statistics of the `fsA` run: both files moved, no errors. -/
def c8GoodStats : Statistics :=
  { dirsChecked := 1, dirsSkipped := 1, filesChecked := 2, filesMoved := 2,
    bytesMoved := 12 }

/-! ### Per-job functional-correctness claims -/

/-- C2: for a Job whose source is a directory (not a symlink): if the target
path does not exist, exactly one rename of the whole subtree is attempted
(rename issued when not in dry-run) and no child Jobs are produced; if the
target exists, no rename is attempted and the Job produces exactly one child
per immediate entry of the source directory, pairing source/entry with
target/entry; an empty source directory whose target exists produces zero
children. -/
theorem c2_dir_job (fs : Fs) (opts : Options) (s t : String) (stats : Statistics)
    (info : FileInfo) (hne : s ≠ t) (hsrc : fs.lstat s = .ok info)
    (hdir : info.ftype = .dir) :
    (targetExists fs t = false →
       (processPath fs opts s t stats).2.1 = [] ∧
       (opts.dryRun = false →
          (processPath fs opts s t stats).2.2 = [Effect.rename s t])) ∧
    (targetExists fs t = true →
       (processPath fs opts s t stats).2.2 = [] ∧
       (∀ entries, fs.readDir s = some entries →
          (processPath fs opts s t stats).2.1
            = entries.map (fun e =>
                { sourcePath := joinPath s e, targetPath := joinPath t e })) ∧
       (fs.readDir s = some [] → (processPath fs opts s t stats).2.1 = [])) := by
  constructor
  · intro hte
    constructor
    · simp [processPath, hne, hsrc, hdir, processDir, hte]
      split_ifs <;> simp
    · intro hdry
      simp [processPath, hne, hsrc, hdir, processDir, hte, hdry]
      split_ifs <;> simp
  · intro hte
    refine ⟨?_, ?_, ?_⟩
    · simp [processPath, hne, hsrc, hdir, processDir, hte]
      cases hrd : fs.readDir s <;> simp [hrd]
    · intro entries hrd
      simp [processPath, hne, hsrc, hdir, processDir, hte, hrd]
    · intro hrd
      simp [processPath, hne, hsrc, hdir, processDir, hte, hrd]

/-- C3: for a Job whose source is a regular file (any non-directory,
non-symlink object): if the target exists, no rename is attempted and the
file is recorded as skipped (FilesSkipped and FilesChecked incremented); if
the target is absent, a rename from source to target is attempted (issued
when not in dry-run); in both cases the Job resolves with no child Jobs. -/
theorem c3_file_job (fs : Fs) (opts : Options) (s t : String) (stats : Statistics)
    (info : FileInfo) (hne : s ≠ t) (hsrc : fs.lstat s = .ok info)
    (hndir : info.ftype ≠ .dir) (hnsym : info.ftype ≠ .symlink) :
    (processPath fs opts s t stats).2.1 = [] ∧
    (targetExists fs t = true →
       (processPath fs opts s t stats).1
         = { stats with filesChecked := stats.filesChecked + 1,
                        filesSkipped := stats.filesSkipped + 1 } ∧
       (processPath fs opts s t stats).2.2 = []) ∧
    (targetExists fs t = false → opts.dryRun = false →
       (processPath fs opts s t stats).2.2 = [Effect.rename s t]) := by
  refine ⟨?_, ?_, ?_⟩
  · simp [processPath, hne, hsrc, hndir, hnsym]
  · intro hte
    simp [processPath, hne, hsrc, hndir, hnsym, processFile, hte]
  · intro hte hdry
    simp [processPath, hne, hsrc, hndir, hnsym, processFile, hte, hdry]
    split_ifs <;> simp

/-- C4: for a Job whose source is a symbolic link, the Job resolves with the
symlinks-skipped counter incremented and no other statistic changed, no
rename is performed, and no child Jobs are produced — so nothing is moved,
nothing is traversed, and no entry is created in the target tree. -/
theorem c4_symlink_job (fs : Fs) (opts : Options) (s t : String) (stats : Statistics)
    (info : FileInfo) (hne : s ≠ t) (hsrc : fs.lstat s = .ok info)
    (hsym : info.ftype = .symlink) :
    processPath fs opts s t stats
      = ({ stats with symlinksSkipped := stats.symlinksSkipped + 1 }, [], []) := by
  simp [processPath, hne, hsrc, hsym]

/-- C9: the target is considered to exist exactly when Lstat on it succeeds;
an Lstat failure other than not-exists (e.g. permission denied) is treated
as "target absent", so for a file Job a rename onto the target is attempted
rather than the entry being skipped. -/
theorem c9_lstat_error_means_absent (fs : Fs) (opts : Options) (s t : String)
    (stats : Statistics) (info : FileInfo) (hne : s ≠ t)
    (hsrc : fs.lstat s = .ok info) (hndir : info.ftype ≠ .dir)
    (hnsym : info.ftype ≠ .symlink) (hother : fs.lstat t = .errOther)
    (hdry : opts.dryRun = false) :
    (∀ p, targetExists fs p = true ↔ ∃ i, fs.lstat p = .ok i) ∧
    (processPath fs opts s t stats).2.2 = [Effect.rename s t] ∧
    (processPath fs opts s t stats).1.filesSkipped = stats.filesSkipped := by
  refine ⟨?_, ?_, ?_⟩
  · intro p
    cases h : fs.lstat p <;> simp [targetExists, h]
  · have hte : targetExists fs t = false := by simp [targetExists, hother]
    simp [processPath, hne, hsrc, hndir, hnsym, processFile, hte, hdry]
    split_ifs <;> simp
  · have hte : targetExists fs t = false := by simp [targetExists, hother]
    simp [processPath, hne, hsrc, hndir, hnsym, processFile, hte, hdry]
    split_ifs <;> simp

/-- C10: the bytes-moved counter is incremented only when an individual file
Job is moved, and then by the size of that file (captured from the Lstat before
the move); a directory Job — in particular a whole-subtree rename when the
target is absent — contributes zero to bytes-moved. -/
theorem c10_bytes_only_for_files (fs : Fs) (opts : Options) (s t : String)
    (stats : Statistics) (info : FileInfo) (hne : s ≠ t)
    (hsrc : fs.lstat s = .ok info) :
    (info.ftype = .dir →
       (processPath fs opts s t stats).1.bytesMoved = stats.bytesMoved) ∧
    (info.ftype ≠ .dir → info.ftype ≠ .symlink →
       (processPath fs opts s t stats).1.bytesMoved
         = stats.bytesMoved +
           (if targetExists fs t = false ∧
               (opts.dryRun = true ∨ fs.renameFails s t = false)
            then info.size else 0) ∧
       (processPath fs opts s t stats).1.filesMoved
         = stats.filesMoved +
           (if targetExists fs t = false ∧
               (opts.dryRun = true ∨ fs.renameFails s t = false)
            then 1 else 0)) := by
  constructor
  · intro hdir
    simp [processPath, hne, hsrc, hdir, processDir]
    split_ifs <;> cases hrd : fs.readDir s <;> simp [hrd]
  · intro hndir hnsym
    constructor <;>
    · simp [processPath, hne, hsrc, hndir, hnsym, processFile]
      split_ifs <;> simp_all

/-! ### C1: WaitGroup ordering inside one worker iteration -/

/-- Any proper initial segment of `K` adds followed by a single done consists
of adds only. -/
theorem all_add_of_split : ∀ (n : Nat) (pre suf : List WgOp),
    pre ++ suf = List.replicate n WgOp.add ++ [WgOp.done] → suf ≠ [] →
    ∀ x ∈ pre, x = WgOp.add := by
  intro n
  induction n with
  | zero =>
    intro pre suf h hs x hx
    cases pre with
    | nil => simp at hx
    | cons p pr =>
      simp at h
      obtain ⟨hp, hrest⟩ := h
      exact absurd hrest.2 hs
  | succ m ih =>
    intro pre suf h hs x hx
    cases pre with
    | nil => simp at hx
    | cons p pr =>
      rw [List.replicate_succ] at h
      simp at h
      obtain ⟨hp, hrest⟩ := h
      rcases List.mem_cons.mp hx with rfl | hx
      · exact hp
      · exact ih pr suf hrest hs x hx

/-- Applying a sequence of adds only can only raise the counter. -/
theorem wgCount_all_add : ∀ (l : List WgOp) (c : Nat),
    (∀ x ∈ l, x = WgOp.add) → wgCount c l = c + l.length := by
  intro l
  induction l with
  | nil => intro c _; simp [wgCount]
  | cons p pr ih =>
    intro c h
    have hp : p = WgOp.add := h p (List.mem_cons_self p pr)
    subst hp
    rw [wgCount, ih (c + 1) (fun x hx => h x (List.mem_cons_of_mem _ hx))]
    simp
    omega

/-- Mapping a list of jobs to adds is replication. -/
theorem map_add_replicate : ∀ l : List Job,
    l.map (fun _ => WgOp.add) = List.replicate l.length WgOp.add := by
  intro l
  induction l with
  | nil => rfl
  | cons j pr ih => simp [List.replicate_succ, ih]

/-- C1: for every Job a worker resolves, the WaitGroup operations it performs
are one Add per produced child Job followed by the Done of the parent, in that
order; therefore, starting from a counter of at least one (the in-flight
parent itself), the counter never reads zero at any point strictly before
the completion of the parent is signaled — in particular never while children of
the in-flight Job remain to be registered. -/
theorem c1_children_added_before_parent_done (fs : Fs) (opts : Options)
    (s t : String) (stats : Statistics) (c : Nat) (hc : 1 ≤ c) :
    workerWgOps (processPath fs opts s t stats).2.1
      = List.replicate (processPath fs opts s t stats).2.1.length WgOp.add
        ++ [WgOp.done] ∧
    (∀ pre suf : List WgOp,
       pre ++ suf = workerWgOps (processPath fs opts s t stats).2.1 →
       suf ≠ [] → 1 ≤ wgCount c pre) := by
  constructor
  · rw [workerWgOps, map_add_replicate]
  · intro pre suf h hs
    rw [workerWgOps, map_add_replicate] at h
    have hall := all_add_of_split (processPath fs opts s t stats).2.1.length pre suf h hs
    rw [wgCount_all_add pre c hall]
    omega

/-- Witness for C1 at a concrete expansion producing two children. -/
theorem c1_witness : 1 ≤ wgCount 1 [WgOp.add] := by
  exact (c1_children_added_before_parent_done fsA optsDefault "/s" "/t" initStats 1
    (by decide)).2 [WgOp.add] [WgOp.add, WgOp.done] (by decide) (by decide)

/-! ### C5: dry-run -/

/-- One job processed in dry-run mode issues no rename and computes exactly
the statistics and children of a real run in which every rename succeeds. -/
theorem processPath_dry (fs : Fs) (opts : Options) (s t : String)
    (stats : Statistics) (h : opts.dryRun = true) :
    processPath fs opts s t stats
      = ((processPath { fs with renameFails := fun _ _ => false }
            { opts with dryRun := false } s t stats).1,
         (processPath { fs with renameFails := fun _ _ => false }
            { opts with dryRun := false } s t stats).2.1, []) := by
  by_cases hst : s = t
  · simp [processPath, hst]
  · cases hls : fs.lstat s with
    | errNotExist => simp [processPath, hst, hls]
    | errOther => simp [processPath, hst, hls]
    | ok info =>
      by_cases hsym : info.ftype = .symlink
      · simp [processPath, hst, hls, hsym]
      · by_cases hdir : info.ftype = .dir
        · simp only [processPath, hst, hls, hsym, hdir, processDir, targetExists, h,
            if_false, if_neg hst]
          cases hlt : fs.lstat t <;>
            (simp [hsym, hdir, h]
             try (cases hrd : fs.readDir s <;> simp [hrd]))
        · simp only [processPath, hst, hls, hsym, hdir, processFile, targetExists, h,
            if_neg hst]
          cases hlt : fs.lstat t <;> simp [hsym, hdir, h]

/-- A dry run of the whole engine issues no rename and computes the same
final statistics as the corresponding real run in which every rename
succeeds. -/
theorem runJobs_dry (fs : Fs) (opts : Options) (h : opts.dryRun = true) :
    ∀ (fuel : Nat) (jobs : List Job) (stats : Statistics),
      runJobs fs opts fuel jobs stats
        = Option.map (fun p => (p.1, ([] : List Effect)))
            (runJobs { fs with renameFails := fun _ _ => false }
               { opts with dryRun := false } fuel jobs stats)
  | fuel, [], stats => by cases fuel <;> simp [runJobs]
  | 0, j :: rest, stats => by simp [runJobs]
  | Nat.succ fuel, j :: rest, stats => by
    rw [runJobs, runJobs]
    rw [processPath_dry fs opts j.sourcePath j.targetPath stats h]
    rw [runJobs_dry fs opts h fuel]
    cases hr : runJobs { fs with renameFails := fun _ _ => false }
        { opts with dryRun := false } fuel
        (rest ++ (processPath { fs with renameFails := fun _ _ => false }
          { opts with dryRun := false } j.sourcePath j.targetPath stats).2.1)
        (processPath { fs with renameFails := fun _ _ => false }
          { opts with dryRun := false } j.sourcePath j.targetPath stats).1 with
    | none => simp
    | some p => simp

/-- C5: with dry-run enabled, no rename is ever issued for any Job, while
the statistics (in particular DirsMoved, FilesMoved, BytesMoved) end exactly
as in a real run in which each planned move succeeded. -/
theorem c5_dry_run_no_renames (fs : Fs) (opts : Options) (fuel : Nat)
    (jobs : List Job) (stats : Statistics) (h : opts.dryRun = true) :
    (∀ st effs, runJobs fs opts fuel jobs stats = some (st, effs) → effs = []) ∧
    Option.map Prod.fst (runJobs fs opts fuel jobs stats)
      = Option.map Prod.fst
          (runJobs { fs with renameFails := fun _ _ => false }
             { opts with dryRun := false } fuel jobs stats) := by
  have hd := runJobs_dry fs opts h fuel jobs stats
  constructor
  · intro st effs he
    rw [hd] at he
    cases hr : runJobs { fs with renameFails := fun _ _ => false }
        { opts with dryRun := false } fuel jobs stats with
    | none => rw [hr] at he; simp at he
    | some p =>
      rw [hr] at he
      simp at he
      exact he.2
  · rw [hd]
    cases hr : runJobs { fs with renameFails := fun _ _ => false }
        { opts with dryRun := false } fuel jobs stats <;> simp

/-- Witness for C5 on the concrete two-file tree. -/
theorem c5_witness :
    Option.map Prod.fst
        (runJobs fsA optsDry 5 [{ sourcePath := "/s", targetPath := "/t" }] initStats)
      = Option.map Prod.fst
          (runJobs { fsA with renameFails := fun _ _ => false }
             { optsDry with dryRun := false } 5
             [{ sourcePath := "/s", targetPath := "/t" }] initStats) :=
  (c5_dry_run_no_renames fsA optsDry 5
    [{ sourcePath := "/s", targetPath := "/t" }] initStats (by decide)).2

/-! ### C6: run-level success criterion -/

/-- C6: after all Jobs resolve, the run fails exactly when the cumulative
error counter is nonzero and succeeds exactly when it is zero — in
particular a run that only skipped entries (filesSkipped or dirsSkipped
positive) but recorded no error succeeds. -/
theorem c6_error_counter_decides_outcome (fs : Fs) (opts : Options)
    (s t : String) (fuel : Nat) (success : Bool) (st : Statistics)
    (effs : List Effect)
    (h : performMove fs opts s t fuel = .finished success st effs) :
    (success = true ↔ st.errors = 0) ∧ (success = false ↔ 0 < st.errors) := by
  simp only [performMove] at h
  cases hv : validate fs s t with
  | some e => rw [hv] at h; simp at h
  | none =>
    rw [hv] at h
    cases hr : runJobs fs opts fuel [{ sourcePath := s, targetPath := t }] initStats with
    | none => rw [hr] at h; simp at h
    | some p =>
      rw [hr] at h
      simp at h
      obtain ⟨hsucc, hst, heff⟩ := h
      subst hst
      constructor
      · rw [← hsucc]
        simp
      · rw [← hsucc]
        simp
        omega

/-- Witness for C6: the `fsSkip` run skips its one file, records no error
and succeeds. -/
theorem c6_witness :
    (true = true ↔
       ({ dirsChecked := 1, dirsSkipped := 1, filesChecked := 1,
          filesSkipped := 1 } : Statistics).errors = 0) ∧
    (true = false ↔
       0 < ({ dirsChecked := 1, dirsSkipped := 1, filesChecked := 1,
              filesSkipped := 1 } : Statistics).errors) :=
  c6_error_counter_decides_outcome fsSkip optsDefault "/s" "/t" 5 true
    { dirsChecked := 1, dirsSkipped := 1, filesChecked := 1, filesSkipped := 1 }
    [] (by decide)

/-! ### C7: path validation -/

/-- Counterexample to C7: a source root that is a symbolic link is rejected
with the not-a-directory error, not with a symlink-specific error, so
validation does not distinguish the wrong-type case from the symlink case. -/
theorem c7_counterexample :
    validate fsLinkRoot "/s" "/t" = some ValidationError.sourceNotDir ∧
    validate fsLinkRoot "/s" "/t" ≠ some ValidationError.sourceSymlink := by
  constructor <;> decide

/-- C7 (amended): path validation runs before any Job is created, and for
each of source and target it distinguishes a missing path (stat error) from
a non-directory; a symbolic link also fails validation, but is reported with
the not-a-directory error — the dedicated symlink errors are unreachable,
because Lstat reports a symlink as not a directory.  The seed Job is run
only when both paths are existing directories. -/
theorem c7_validation_behaviour (fs : Fs) (opts : Options) (s t : String)
    (fuel : Nat) :
    (validate fs s t ≠ some ValidationError.sourceSymlink) ∧
    (validate fs s t ≠ some ValidationError.targetSymlink) ∧
    (fs.lstat s = .errNotExist → validate fs s t = some ValidationError.sourceStatError) ∧
    (∀ info, fs.lstat s = .ok info → info.ftype ≠ .dir →
       validate fs s t = some ValidationError.sourceNotDir) ∧
    (∀ info, fs.lstat s = .ok info → info.ftype = .dir → fs.lstat t = .errNotExist →
       validate fs s t = some ValidationError.targetStatError) ∧
    (∀ info tinfo, fs.lstat s = .ok info → info.ftype = .dir →
       fs.lstat t = .ok tinfo → tinfo.ftype ≠ .dir →
       validate fs s t = some ValidationError.targetNotDir) ∧
    (∀ e, validate fs s t = some e → performMove fs opts s t fuel = .invalid e) ∧
    (validate fs s t = none ↔
       (∃ info, fs.lstat s = .ok info ∧ info.ftype = .dir) ∧
       (∃ tinfo, fs.lstat t = .ok tinfo ∧ tinfo.ftype = .dir)) := by
  refine ⟨?_, ?_, ?_, ?_, ?_, ?_, ?_, ?_⟩
  · cases hls : fs.lstat s with
    | errNotExist => simp [validate, hls]
    | errOther => simp [validate, hls]
    | ok info =>
      by_cases hdir : info.ftype = .dir
      · cases hlt : fs.lstat t with
        | errNotExist => simp [validate, hls, hlt, hdir]
        | errOther => simp [validate, hls, hlt, hdir]
        | ok tinfo =>
          by_cases htdir : tinfo.ftype = .dir
          · simp [validate, hls, hlt, hdir, htdir]
          · simp [validate, hls, hlt, hdir, htdir]
      · simp [validate, hls, hdir]
  · cases hls : fs.lstat s with
    | errNotExist => simp [validate, hls]
    | errOther => simp [validate, hls]
    | ok info =>
      by_cases hdir : info.ftype = .dir
      · cases hlt : fs.lstat t with
        | errNotExist => simp [validate, hls, hlt, hdir]
        | errOther => simp [validate, hls, hlt, hdir]
        | ok tinfo =>
          by_cases htdir : tinfo.ftype = .dir
          · simp [validate, hls, hlt, hdir, htdir]
          · simp [validate, hls, hlt, hdir, htdir]
      · simp [validate, hls, hdir]
  · intro hls
    simp [validate, hls]
  · intro info hls hndir
    simp [validate, hls, hndir]
  · intro info hls hdir hlt
    simp [validate, hls, hdir, hlt]
  · intro info tinfo hls hdir hlt htndir
    simp [validate, hls, hdir, hlt, htndir]
  · intro e he
    simp [performMove, he]
  · constructor
    · intro hv
      cases hls : fs.lstat s with
      | errNotExist => simp [validate, hls] at hv
      | errOther => simp [validate, hls] at hv
      | ok info =>
        by_cases hdir : info.ftype = .dir
        · cases hlt : fs.lstat t with
          | errNotExist => simp [validate, hls, hdir, hlt] at hv
          | errOther => simp [validate, hls, hdir, hlt] at hv
          | ok tinfo =>
            by_cases htdir : tinfo.ftype = .dir
            · exact ⟨⟨info, rfl, hdir⟩, ⟨tinfo, rfl, htdir⟩⟩
            · simp [validate, hls, hdir, hlt, htdir] at hv
        · simp [validate, hls, hdir] at hv
    · rintro ⟨⟨info, hls, hdir⟩, ⟨tinfo, hlt, htdir⟩⟩
      simp [validate, hls, hdir, hlt, htdir]

/-- Witness for C7 on the symlink source root: validation rejects it with
the not-a-directory error. -/
theorem c7_witness :
    validate fsLinkRoot "/s" "/t" = some ValidationError.sourceNotDir := by
  exact (c7_validation_behaviour fsLinkRoot optsDefault "/s" "/t" 5).2.2.2.1
    { ftype := FType.symlink, size := 0 } (by decide) (by decide)

/-! ### C8: file accounting -/

/-- Processing one job preserves the file-accounting sandwich
`filesMoved + filesSkipped ≤ filesChecked ≤ filesMoved + filesSkipped + errors`:
a checked file is moved, skipped, or charged to the error counter. -/
theorem processPath_inv (fs : Fs) (opts : Options) (s t : String)
    (stats : Statistics)
    (h1 : stats.filesMoved + stats.filesSkipped ≤ stats.filesChecked)
    (h2 : stats.filesChecked ≤ stats.filesMoved + stats.filesSkipped + stats.errors) :
    (processPath fs opts s t stats).1.filesMoved
        + (processPath fs opts s t stats).1.filesSkipped
      ≤ (processPath fs opts s t stats).1.filesChecked ∧
    (processPath fs opts s t stats).1.filesChecked
      ≤ (processPath fs opts s t stats).1.filesMoved
        + (processPath fs opts s t stats).1.filesSkipped
        + (processPath fs opts s t stats).1.errors := by
  by_cases hst : s = t
  · simp [processPath, hst]
    omega
  · cases hls : fs.lstat s with
    | errNotExist => simp [processPath, hst, hls]; omega
    | errOther => simp [processPath, hst, hls]; omega
    | ok info =>
      by_cases hsym : info.ftype = .symlink
      · simp [processPath, hst, hls, hsym]; omega
      · by_cases hdir : info.ftype = .dir
        · simp only [processPath, hst, hls, hsym, hdir, processDir, if_neg hst]
          split_ifs <;>
            first
              | (constructor <;> simp <;> omega)
              | (cases hrd : fs.readDir s <;> (constructor <;> simp [hrd] <;> omega))
        · simp only [processPath, hst, hls, hsym, hdir, processFile, if_neg hst]
          split_ifs <;> (constructor <;> simp <;> omega)

/-- The engine preserves the file-accounting sandwich from any starting
statistics to the final statistics of a completed run. -/
theorem runJobs_inv (fs : Fs) (opts : Options) :
    ∀ (fuel : Nat) (jobs : List Job) (stats st : Statistics) (effs : List Effect),
      runJobs fs opts fuel jobs stats = some (st, effs) →
      stats.filesMoved + stats.filesSkipped ≤ stats.filesChecked →
      stats.filesChecked ≤ stats.filesMoved + stats.filesSkipped + stats.errors →
      st.filesMoved + st.filesSkipped ≤ st.filesChecked ∧
      st.filesChecked ≤ st.filesMoved + st.filesSkipped + st.errors
  | fuel, [], stats, st, effs => by
    intro h h1 h2
    cases fuel <;>
      (simp [runJobs] at h
       obtain ⟨hst, heff⟩ := h
       subst hst
       exact ⟨h1, h2⟩)
  | 0, j :: rest, stats, st, effs => by
    intro h h1 h2
    simp [runJobs] at h
  | Nat.succ fuel, j :: rest, stats, st, effs => by
    intro h h1 h2
    rw [runJobs] at h
    obtain ⟨hi1, hi2⟩ := processPath_inv fs opts j.sourcePath j.targetPath stats h1 h2
    cases hr : runJobs fs opts fuel
        (rest ++ (processPath fs opts j.sourcePath j.targetPath stats).2.1)
        (processPath fs opts j.sourcePath j.targetPath stats).1 with
    | none => rw [hr] at h; simp at h
    | some p =>
      rw [hr] at h
      simp at h
      obtain ⟨hst, heff⟩ := h
      subst hst
      exact runJobs_inv fs opts fuel
        (rest ++ (processPath fs opts j.sourcePath j.targetPath stats).2.1)
        (processPath fs opts j.sourcePath j.targetPath stats).1 p.1 p.2 hr hi1 hi2

/-- Counterexample to C8: in the `fsFail` run the rename of the single file
fails, so it is checked but neither moved nor skipped, and the claimed
equality `filesMoved + filesSkipped = filesChecked` does not hold at the
end of the run. -/
theorem c8_counterexample :
    runJobs fsFail optsDefault 5 [{ sourcePath := "/s", targetPath := "/t" }] initStats
      = some (c8Stats, [Effect.rename "/s/f" "/t/f"]) ∧
    c8Stats.filesMoved + c8Stats.filesSkipped ≠ c8Stats.filesChecked := by
  constructor <;> decide

/-- C8 (amended): at the end of every run,
`filesMoved + filesSkipped ≤ filesChecked` holds, and the equality
`filesMoved + filesSkipped = filesChecked` holds whenever the error counter
is zero; a failed file rename yields a checked file that is neither moved
nor skipped (it is charged to the error counter instead). -/
theorem c8_files_accounting (fs : Fs) (opts : Options) (fuel : Nat)
    (jobs : List Job) (st : Statistics) (effs : List Effect)
    (h : runJobs fs opts fuel jobs initStats = some (st, effs)) :
    st.filesMoved + st.filesSkipped ≤ st.filesChecked ∧
    (st.errors = 0 → st.filesMoved + st.filesSkipped = st.filesChecked) := by
  obtain ⟨a, b⟩ := runJobs_inv fs opts fuel jobs initStats st effs h
    (by simp [initStats]) (by simp [initStats])
  exact ⟨a, fun he => by omega⟩

/-- Witness for C8 on the error-free `fsA` run: both files moved, the
accounting equality holds. -/
theorem c8_witness :
    c8GoodStats.filesMoved + c8GoodStats.filesSkipped = c8GoodStats.filesChecked :=
  (c8_files_accounting fsA optsDefault 5
    [{ sourcePath := "/s", targetPath := "/t" }] c8GoodStats
    [Effect.rename "/s/a" "/t/a", Effect.rename "/s/b" "/t/b"]
    (by decide)).2 (by decide)

/-! ### Witnesses for the per-job claims -/

/-- Witness for C2: the root directory of `fsA` exists in the target and
expands into one child per entry. -/
theorem c2_witness :
    (processPath fsA optsDefault "/s" "/t" initStats).2.1
      = [{ sourcePath := "/s/a", targetPath := "/t/a" },
         { sourcePath := "/s/b", targetPath := "/t/b" }] := by
  have h := ((c2_dir_job fsA optsDefault "/s" "/t" initStats
    { ftype := FType.dir, size := 0 } (by decide) (by decide) rfl).2
    (by decide)).2.1 ["a", "b"] (by decide)
  rw [h]
  decide

/-- Witness for C3: the file `/s/f` of `fsSkip` already exists in the
target, so it is counted checked and skipped. -/
theorem c3_witness :
    (processPath fsSkip optsDefault "/s/f" "/t/f" initStats).1
      = { initStats with filesChecked := initStats.filesChecked + 1,
                         filesSkipped := initStats.filesSkipped + 1 } :=
  ((c3_file_job fsSkip optsDefault "/s/f" "/t/f" initStats
    { ftype := FType.file, size := 5 } (by decide) (by decide) (by decide)
    (by decide)).2.1 (by decide)).1

/-- Witness for C4: the symlink `/s/l` of `fsSym` is skipped with only the
symlink counter incremented. -/
theorem c4_witness :
    processPath fsSym optsDefault "/s/l" "/t/l" initStats
      = ({ initStats with symlinksSkipped := initStats.symlinksSkipped + 1 }, [], []) :=
  c4_symlink_job fsSym optsDefault "/s/l" "/t/l" initStats
    { ftype := FType.symlink, size := 0 } (by decide) (by decide) rfl

/-- Witness for C9: Lstat on `/t/p` fails with a non-not-exists error, and
the move of `/s/p` is attempted anyway. -/
theorem c9_witness :
    (processPath fsPerm optsDefault "/s/p" "/t/p" initStats).2.2
      = [Effect.rename "/s/p" "/t/p"] :=
  (c9_lstat_error_means_absent fsPerm optsDefault "/s/p" "/t/p" initStats
    { ftype := FType.file, size := 4 } (by decide) (by decide) (by decide)
    (by decide) (by decide) rfl).2.1

/-- Witness for C10: moving the 5-byte file `/s/a` adds exactly its size to
the bytes-moved counter. -/
theorem c10_witness :
    (processPath fsA optsDefault "/s/a" "/t/a" initStats).1.bytesMoved
      = initStats.bytesMoved + 5 := by
  have h := ((c10_bytes_only_for_files fsA optsDefault "/s/a" "/t/a" initStats
    { ftype := FType.file, size := 5 } (by decide) (by decide)).2
    (by decide) (by decide)).1
  rw [h]
  decide

end Mvmv
